import Mathlib

/-!
Shallow embedding of the Tetris game engine implemented in
src/components/TetrisExperience.tsx.  The board is a list of rows, each row a
list of optional cells; positions are integer pairs (x grows rightward,
y grows downward); the reducer is embedded as a pure function parameterised by
the two shuffled bags that the JavaScript code would draw from its random
number generator during one action (randomBag always returns a permutation of
the seven piece kinds, hence a list of length 7).
-/

namespace Tetris

/-- Constant BOARD_WIDTH from the source. -/
def BOARD_WIDTH : Nat := 10

/-- Constant BOARD_HEIGHT from the source (includes 2 hidden spawn rows). -/
def BOARD_HEIGHT : Nat := 22

/-- Constant INITIAL_DROP_DELAY from the source. -/
def INITIAL_DROP_DELAY : Int := 1000

/-- Constant MIN_DROP_DELAY from the source. -/
def MIN_DROP_DELAY : Int := 60

/-- The seven tetromino kinds (type TetrominoKey in the source). -/
inductive Tetromino
  | I | J | L | O | S | T | Z
deriving DecidableEq, Repr

/-- A locked board cell (type Cell in the source).  The optional clearing
flag of the source is a plain boolean here, false standing for undefined. -/
structure Cell where
  type : Tetromino
  locked : Bool
  clearing : Bool
deriving DecidableEq, Repr

/-- An (x, y) coordinate pair in board space; also used for kick offsets. -/
structure Pos where
  x : Int
  y : Int
deriving DecidableEq, Repr

/-- The active falling piece (type ActivePiece in the source). -/
structure ActivePiece where
  type : Tetromino
  rotation : Nat
  position : Pos
deriving DecidableEq, Repr

/-- The board: BOARD_HEIGHT rows of BOARD_WIDTH optional cells. -/
abbrev Board := List (List (Option Cell))

/-- Game status (type GameStateStatus in the source). -/
inductive Status
  | idle | playing | paused | gameover
deriving DecidableEq, Repr

/-- Run statistics (type GameStats in the source). -/
structure GameStats where
  singles : Nat
  doubles : Nat
  triples : Nat
  tetrises : Nat
  combos : Nat
  maxCombo : Int
deriving DecidableEq, Repr

/-- The full session state (type GameState in the source). -/
structure GameState where
  board : Board
  current : ActivePiece
  nextQueue : List Tetromino
  holdPiece : Option Tetromino
  canHold : Bool
  status : Status
  score : Int
  level : Nat
  lines : Nat
  combo : Int
  stats : GameStats
  linesToClear : List Nat
  dropDelay : Int
deriving DecidableEq, Repr

/-- The reducer actions used by the game (type Action in the source; the
actions the reducer leaves to its default branch are omitted). -/
inductive Action
  | RESET (piece : ActivePiece) (queue : List Tetromino)
  | TICK
  | MOVE (dx dy : Int)
  | ROTATE (direction : Int)
  | HARD_DROP
  | HOLD
  | PAUSE_TOGGLE
  | RESUME
  | GAME_OVER
  | APPLY_CLEARING
  | SET_STATUS (st : Status)

/-- The TETROMINOES shape table from the source, verbatim. -/
def TETROMINOES : Tetromino → List (List (List Nat))
  | .I =>
    [[[0, 0, 0, 0],
      [1, 1, 1, 1],
      [0, 0, 0, 0],
      [0, 0, 0, 0]],
     [[0, 0, 1, 0],
      [0, 0, 1, 0],
      [0, 0, 1, 0],
      [0, 0, 1, 0]],
     [[0, 0, 0, 0],
      [0, 0, 0, 0],
      [1, 1, 1, 1],
      [0, 0, 0, 0]],
     [[0, 1, 0, 0],
      [0, 1, 0, 0],
      [0, 1, 0, 0],
      [0, 1, 0, 0]]]
  | .J =>
    [[[1, 0, 0],
      [1, 1, 1],
      [0, 0, 0]],
     [[0, 1, 1],
      [0, 1, 0],
      [0, 1, 0]],
     [[0, 0, 0],
      [1, 1, 1],
      [0, 0, 1]],
     [[0, 1, 0],
      [0, 1, 0],
      [1, 1, 0]]]
  | .L =>
    [[[0, 0, 1],
      [1, 1, 1],
      [0, 0, 0]],
     [[0, 1, 0],
      [0, 1, 0],
      [0, 1, 1]],
     [[0, 0, 0],
      [1, 1, 1],
      [1, 0, 0]],
     [[1, 1, 0],
      [0, 1, 0],
      [0, 1, 0]]]
  | .O =>
    [[[0, 1, 1, 0],
      [0, 1, 1, 0],
      [0, 0, 0, 0],
      [0, 0, 0, 0]]]
  | .S =>
    [[[0, 1, 1],
      [1, 1, 0],
      [0, 0, 0]],
     [[0, 1, 0],
      [0, 1, 1],
      [0, 0, 1]],
     [[0, 0, 0],
      [0, 1, 1],
      [1, 1, 0]],
     [[1, 0, 0],
      [1, 1, 0],
      [0, 1, 0]]]
  | .T =>
    [[[0, 1, 0],
      [1, 1, 1],
      [0, 0, 0]],
     [[0, 1, 0],
      [0, 1, 1],
      [0, 1, 0]],
     [[0, 0, 0],
      [1, 1, 1],
      [0, 1, 0]],
     [[0, 1, 0],
      [1, 1, 0],
      [0, 1, 0]]]
  | .Z =>
    [[[1, 1, 0],
      [0, 1, 1],
      [0, 0, 0]],
     [[0, 0, 1],
      [0, 1, 1],
      [0, 1, 0]],
     [[0, 0, 0],
      [1, 1, 0],
      [0, 1, 1]],
     [[0, 1, 0],
      [1, 1, 0],
      [1, 0, 0]]]

/-- getPieceMatrix from the source: variations[rotation % variations.length]. -/
def getPieceMatrix (t : Tetromino) (rotation : Nat) : List (List Nat) :=
  let variations := TETROMINOES t
  variations.getD (rotation % variations.length) []

/-- The SCORES base-score table from the source. -/
def SCORES : List Int := [0, 100, 300, 500, 800]

/-- The SRS_KICKS_I table from the source, keyed by (from % 4, to % 4). -/
def SRS_KICKS_I : Nat × Nat → Option (List Pos)
  | (0, 1) => some [⟨0, 0⟩, ⟨-2, 0⟩, ⟨1, 0⟩, ⟨-2, -1⟩, ⟨1, 2⟩]
  | (1, 0) => some [⟨0, 0⟩, ⟨2, 0⟩, ⟨-1, 0⟩, ⟨2, 1⟩, ⟨-1, -2⟩]
  | (1, 2) => some [⟨0, 0⟩, ⟨-1, 0⟩, ⟨2, 0⟩, ⟨-1, 2⟩, ⟨2, -1⟩]
  | (2, 1) => some [⟨0, 0⟩, ⟨1, 0⟩, ⟨-2, 0⟩, ⟨1, -2⟩, ⟨-2, 1⟩]
  | (2, 3) => some [⟨0, 0⟩, ⟨2, 0⟩, ⟨-1, 0⟩, ⟨2, 1⟩, ⟨-1, -2⟩]
  | (3, 2) => some [⟨0, 0⟩, ⟨-2, 0⟩, ⟨1, 0⟩, ⟨-2, -1⟩, ⟨1, 2⟩]
  | (3, 0) => some [⟨0, 0⟩, ⟨1, 0⟩, ⟨-2, 0⟩, ⟨1, -2⟩, ⟨-2, 1⟩]
  | (0, 3) => some [⟨0, 0⟩, ⟨-1, 0⟩, ⟨2, 0⟩, ⟨-1, 2⟩, ⟨2, -1⟩]
  | _ => none

/-- The SRS_KICKS_DEFAULT table from the source, keyed by (from % 4, to % 4). -/
def SRS_KICKS_DEFAULT : Nat × Nat → Option (List Pos)
  | (0, 1) => some [⟨0, 0⟩, ⟨-1, 0⟩, ⟨-1, 1⟩, ⟨0, -2⟩, ⟨-1, -2⟩]
  | (1, 0) => some [⟨0, 0⟩, ⟨1, 0⟩, ⟨1, -1⟩, ⟨0, 2⟩, ⟨1, 2⟩]
  | (1, 2) => some [⟨0, 0⟩, ⟨1, 0⟩, ⟨1, -1⟩, ⟨0, 2⟩, ⟨1, 2⟩]
  | (2, 1) => some [⟨0, 0⟩, ⟨-1, 0⟩, ⟨-1, 1⟩, ⟨0, -2⟩, ⟨-1, -2⟩]
  | (2, 3) => some [⟨0, 0⟩, ⟨1, 0⟩, ⟨1, 1⟩, ⟨0, -2⟩, ⟨1, -2⟩]
  | (3, 2) => some [⟨0, 0⟩, ⟨-1, 0⟩, ⟨-1, -1⟩, ⟨0, 2⟩, ⟨-1, 2⟩]
  | (3, 0) => some [⟨0, 0⟩, ⟨-1, 0⟩, ⟨-1, -1⟩, ⟨0, 2⟩, ⟨-1, 2⟩]
  | (0, 3) => some [⟨0, 0⟩, ⟨1, 0⟩, ⟨1, 1⟩, ⟨0, -2⟩, ⟨1, -2⟩]
  | _ => none

/-- An empty board row of BOARD_WIDTH null cells. -/
def emptyRow : List (Option Cell) := List.replicate BOARD_WIDTH none

/-- EMPTY_BOARD from the source. -/
def emptyBoard : Board := List.replicate BOARD_HEIGHT emptyRow

/-- Reading a board cell; the source writes board[y][x] only after checking
0 ≤ y and 0 ≤ x, so the Int.toNat conversions are always exact when used. -/
def cellAt (board : Board) (x y : Int) : Option Cell :=
  (board.getD y.toNat []).getD x.toNat none

/-- isCellOccupied from the source. -/
def isCellOccupied (board : Board) (x y : Int) : Bool :=
  if x < 0 ∨ (BOARD_WIDTH : Int) ≤ x ∨ (BOARD_HEIGHT : Int) ≤ y then true
  else if y < 0 then false
  else (cellAt board x y).isSome

/-- collides from the source: the candidate pose is blocked iff some occupied
cell of the rotation matrix is out of horizontal bounds, at or past the bottom
boundary, or on an occupied board cell at a non-negative row.  The source
takes position and rotation as optional arguments defaulting to the piece's
own; here they are always passed explicitly. -/
def collides (board : Board) (piece : ActivePiece) (pos : Pos) (rot : Nat) : Bool :=
  let matrix := getPieceMatrix piece.type rot
  (List.range matrix.length).any fun y =>
    (List.range (matrix.getD y []).length).any fun x =>
      decide ((matrix.getD y []).getD x 0 ≠ 0) &&
        (decide (pos.x + (x : Int) < 0) || decide ((BOARD_WIDTH : Int) ≤ pos.x + (x : Int)) ||
          decide ((BOARD_HEIGHT : Int) ≤ pos.y + (y : Int)) ||
          (decide (0 ≤ pos.y + (y : Int)) && (cellAt board (pos.x + x) (pos.y + y)).isSome))

/-- Writing one board cell (the nextBoard[boardY][boardX] assignment). -/
def setCell (b : Board) (x y : Nat) (c : Cell) : Board :=
  b.set y ((b.getD y []).set x (some c))

/-- mergePiece from the source: write every occupied matrix cell that lands
inside the board as a locked cell of the piece's kind. -/
def mergePiece (board : Board) (piece : ActivePiece) : Board :=
  let matrix := getPieceMatrix piece.type piece.rotation
  (List.range matrix.length).foldl (fun b y =>
    (List.range (matrix.getD y []).length).foldl (fun b2 x =>
      if (matrix.getD y []).getD x 0 ≠ 0 then
        let bx := piece.position.x + (x : Int)
        let by2 := piece.position.y + (y : Int)
        if 0 ≤ by2 ∧ by2 < (BOARD_HEIGHT : Int) ∧ 0 ≤ bx ∧ bx < (BOARD_WIDTH : Int) then
          setCell b2 bx.toNat by2.toNat ⟨piece.type, true, false⟩
        else b2
      else b2) b) board

/-- findFullLines from the source: indices of rows whose every cell is
occupied, in top-to-bottom order. -/
def findFullLines (board : Board) : List Nat :=
  (List.range board.length).filter fun y => (board.getD y []).all Option.isSome

/-- One iteration of the clearFullLines loop: splice out the row at the given
index and unshift a fresh empty row at the top. -/
def collapseStep (b : Board) (line : Nat) : Board :=
  emptyRow :: b.eraseIdx line

/-- clearFullLines from the source. -/
def clearFullLines (board : Board) (lines : List Nat) : Board :=
  if lines.isEmpty then board
  else lines.foldl collapseStep board

/-- getRotationKey from the source (the string key becomes a Nat pair). -/
def getRotationKey (a b : Nat) : Nat × Nat := (a % 4, b % 4)

/-- The kick table selection inside applyKickTests: the O piece uses a single
no-offset kick, the I piece its own table, the rest the shared table, with
[{x:0,y:0}] as fallback for a missing key. -/
def kickList (t : Tetromino) (a b : Nat) : List Pos :=
  if t = .O then [⟨0, 0⟩]
  else
    (if t = .I then SRS_KICKS_I (getRotationKey a b)
     else SRS_KICKS_DEFAULT (getRotationKey a b)).getD [⟨0, 0⟩]

/-- The kick loop of applyKickTests: try each offset in order and return the
first candidate pose that does not collide. -/
def tryKicks (board : Board) (piece : ActivePiece) (nextRotation : Nat) :
    List Pos → Option (Pos × Nat)
  | [] => none
  | k :: ks =>
    let candidatePos : Pos := ⟨piece.position.x + k.x, piece.position.y + k.y⟩
    if collides board piece candidatePos nextRotation then
      tryKicks board piece nextRotation ks
    else some (candidatePos, nextRotation)

/-- applyKickTests from the source. -/
def applyKickTests (board : Board) (piece : ActivePiece) (direction : Int) :
    Option (Pos × Nat) :=
  let nextRotation := (((piece.rotation : Int) + direction + 4) % 4).toNat
  tryKicks board piece nextRotation (kickList piece.type piece.rotation nextRotation)

/-- spawnPiece from the source, parameterised by the bags the two possible
randomBag calls would return (bag1 when the queue is empty, bag2 for the
refill).  The none result corresponds to destructuring an empty array, which
the JavaScript never reaches because randomBag returns seven kinds. -/
def spawnPiece (bag1 bag2 : List Tetromino) (queue : List Tetromino) :
    Option (ActivePiece × List Tetromino) :=
  let q := if queue.isEmpty then queue ++ bag1 else queue
  match q with
  | [] => none
  | nextPiece :: rest =>
    some (⟨nextPiece, 0, ⟨3, 0⟩⟩, if rest.length ≤ 7 then rest ++ bag2 else rest)

/-- calculateLevel from the source. -/
def calculateLevel (lines : Nat) : Nat := min 20 (lines / 10 + 1)

/-- calculateDelay from the source. -/
def calculateDelay (level : Nat) : Int :=
  max MIN_DROP_DELAY (INITIAL_DROP_DELAY - ((level : Int) - 1) * 70)

/-- Marking the cells of the full rows with the clearing flag (the
marked[line].forEach loop shared by the TICK and HARD_DROP branches). -/
def markClearing (b : Board) (lines : List Nat) : Board :=
  lines.foldl (fun bb line =>
    bb.set line ((bb.getD line []).map fun c =>
      c.map fun cell => {cell with clearing := true})) b

/-- The four line-count statistics increments of the clearing branch. -/
def updateLineStats (st : GameStats) (n : Nat) : GameStats :=
  let st1 := if n = 1 then {st with singles := st.singles + 1} else st
  let st2 := if n = 2 then {st1 with doubles := st1.doubles + 1} else st1
  let st3 := if n = 3 then {st2 with triples := st2.triples + 1} else st2
  if n = 4 then {st3 with tetrises := st3.tetrises + 1} else st3

/-- The clearing branch of the lock procedure, identical in the TICK and
HARD_DROP cases of the source up to the hard-drop bonus added to the score. -/
def lockClear (state : GameState) (merged : Board) (lines : List Nat)
    (bonus : Int) : GameState :=
  let marked := markClearing merged lines
  let combo := state.combo + 1
  let level := calculateLevel (state.lines + lines.length)
  let baseScore := SCORES.getD lines.length 0
  let comboBonus := if 0 < combo then combo * 50 else 0
  let totalScore := (baseScore + comboBonus) * (level : Int) + bonus
  let stats0 : GameStats :=
    { state.stats with
      combos := if 0 < combo then state.stats.combos + 1 else state.stats.combos,
      maxCombo := max state.stats.maxCombo combo }
  let stats := updateLineStats stats0 lines.length
  { state with
    board := marked
    linesToClear := lines
    combo := combo
    stats := stats
    score := state.score + totalScore
    lines := state.lines + lines.length
    level := level
    dropDelay := calculateDelay level
    canHold := true }

/-- The hard-drop distance loop, written with explicit fuel.  Every rotation
matrix of every piece kind has an occupied cell, so the loop of the source
always stops once the candidate row passes the bottom boundary; the fuel is
large enough to cover that bound for any starting row. -/
def dropDistanceAux (board : Board) (piece : ActivePiece) : Nat → Nat → Nat
  | 0, d => d
  | fuel + 1, d =>
    if collides board piece ⟨piece.position.x, piece.position.y + (d : Int) + 1⟩
        piece.rotation then d
    else dropDistanceAux board piece fuel (d + 1)

/-- The drop distance accumulated by the while loop of the HARD_DROP case. -/
def dropDistance (board : Board) (piece : ActivePiece) : Nat :=
  dropDistanceAux board piece (BOARD_HEIGHT + 8 + (-piece.position.y).toNat) 0

/-- The reducer from the source, parameterised by the bags the at most two
randomBag calls of one action would return. -/
def reducer (bag1 bag2 : List Tetromino) (state : GameState) (action : Action) :
    GameState :=
  match action with
  | .RESET piece queue =>
    { board := emptyBoard
      current := piece
      nextQueue := queue
      holdPiece := none
      canHold := true
      status := .playing
      score := 0
      level := 1
      lines := 0
      combo := -1
      stats := ⟨0, 0, 0, 0, 0, 0⟩
      linesToClear := []
      dropDelay := INITIAL_DROP_DELAY }
  | .SET_STATUS st => {state with status := st}
  | .PAUSE_TOGGLE =>
    {state with status := if state.status = .paused then .playing else .paused}
  | .RESUME => {state with status := .playing}
  | .MOVE dx dy =>
    if state.status ≠ .playing then state
    else
      let position : Pos :=
        ⟨state.current.position.x + dx, state.current.position.y + dy⟩
      if collides state.board state.current position state.current.rotation then
        state
      else {state with current := {state.current with position := position}}
  | .ROTATE direction =>
    if state.status ≠ .playing then state
    else
      match applyKickTests state.board state.current direction with
      | none => state
      | some pr =>
        {state with current :=
          {state.current with position := pr.1, rotation := pr.2}}
  | .TICK =>
    if state.status ≠ .playing then state
    else
      let nextPos : Pos :=
        ⟨state.current.position.x, state.current.position.y + 1⟩
      if collides state.board state.current nextPos state.current.rotation then
        let merged := mergePiece state.board state.current
        let lines := findFullLines merged
        if lines.isEmpty then
          match spawnPiece bag1 bag2 state.nextQueue with
          | none => state
          | some (piece, queue) =>
            if collides merged piece piece.position piece.rotation then
              {state with board := merged, status := .gameover}
            else
              { state with
                board := merged
                current := piece
                nextQueue := queue
                canHold := true
                combo := -1 }
        else lockClear state merged lines 0
      else {state with current := {state.current with position := nextPos}}
  | .APPLY_CLEARING =>
    if state.linesToClear.isEmpty then state
    else
      let clearedBoard := clearFullLines state.board state.linesToClear
      match spawnPiece bag1 bag2 state.nextQueue with
      | none => state
      | some (piece, queue) =>
        if collides clearedBoard piece piece.position piece.rotation then
          {state with board := clearedBoard, status := .gameover, linesToClear := []}
        else
          { state with
            board := clearedBoard
            current := piece
            nextQueue := queue
            linesToClear := [] }
  | .HOLD =>
    if state.status ≠ .playing ∨ state.canHold = false then state
    else
      match state.holdPiece with
      | some hold =>
        let nextPiece : ActivePiece := ⟨hold, 0, ⟨3, 0⟩⟩
        if collides state.board nextPiece nextPiece.position nextPiece.rotation then
          {state with status := .gameover}
        else
          { state with
            current := nextPiece
            holdPiece := some state.current.type
            canHold := false }
      | none =>
        -- The source draws from a local copy of the queue and its success
        -- return spreads the original state without nextQueue, so the
        -- spliced queue of the draw is discarded.
        match spawnPiece bag1 bag2 state.nextQueue with
        | none => state
        | some (nextPiece, _) =>
          if collides state.board nextPiece nextPiece.position nextPiece.rotation then
            {state with status := .gameover}
          else
            { state with
              current := nextPiece
              holdPiece := some state.current.type
              canHold := false }
  | .HARD_DROP =>
    if state.status ≠ .playing then state
    else
      let d := dropDistance state.board state.current
      let landedPiece : ActivePiece :=
        { state.current with position :=
          ⟨state.current.position.x, state.current.position.y + (d : Int)⟩ }
      let merged := mergePiece state.board landedPiece
      let lines := findFullLines merged
      let bonusScore : Int := 2 * (d : Int)
      if lines.isEmpty then
        match spawnPiece bag1 bag2 state.nextQueue with
        | none => state
        | some (piece, queue) =>
          if collides merged piece piece.position piece.rotation then
            { state with
              board := merged
              score := state.score + bonusScore
              status := .gameover }
          else
            { state with
              board := merged
              current := piece
              nextQueue := queue
              score := state.score + bonusScore
              combo := -1
              canHold := true }
      else lockClear state merged lines bonusScore
  | .GAME_OVER => {state with status := .gameover}

/-- The piece the HOLD case makes active together with the remaining queue:
the held kind at spawn pose when a piece is held, otherwise the next queue
draw.  Used to state the hold game-over property. -/
def holdCandidate (bag1 bag2 : List Tetromino) (s : GameState) :
    Option (ActivePiece × List Tetromino) :=
  match s.holdPiece with
  | some h => some (⟨h, 0, ⟨3, 0⟩⟩, s.nextQueue)
  | none => spawnPiece bag1 bag2 s.nextQueue

/-- The rows of a board whose index (counted from the given start label) is
not listed, in their original order.  Used to state row-collapse
correctness. -/
def rowsNotIn (lines : List Nat) : Nat → Board → Board
  | _, [] => []
  | i, r :: rs =>
    if i ∈ lines then rowsNotIn lines (i + 1) rs
    else r :: rowsNotIn lines (i + 1) rs

/-! Concrete fixtures used to evaluate the theorems on explicit inputs. -/

/-- One bag holding each of the seven kinds once (a possible randomBag value). -/
def stdBag : List Tetromino := [.I, .J, .L, .O, .S, .T, .Z]

/-- A bottom row with the six leftmost columns occupied. -/
def demoRow6 : List (Option Cell) :=
  (List.range 10).map fun i => if i < 6 then some ⟨.J, true, false⟩ else none

/-- A board whose bottom row is demoRow6, otherwise empty. -/
def demoBoardA : Board := List.replicate 21 emptyRow ++ [demoRow6]

/-- A playing state about to lock a horizontal I piece that completes the
bottom row. -/
def demoClear : GameState :=
  { board := demoBoardA
    current := ⟨.I, 0, ⟨6, 20⟩⟩
    nextQueue := [.T]
    holdPiece := none
    canHold := true
    status := .playing
    score := 0
    level := 1
    lines := 0
    combo := -1
    stats := ⟨0, 0, 0, 0, 0, 0⟩
    linesToClear := []
    dropDelay := 1000 }

/-- The same clearing lock entered with nine lines already cleared and an
active combo, so that the computed level is 2 and the combo bonus 50. -/
def demoCombo : GameState := { demoClear with lines := 9, combo := 0 }

/-- The same clearing lock reached through a hard drop from ten rows up. -/
def demoDrop : GameState := { demoClear with current := ⟨.I, 0, ⟨6, 10⟩⟩ }

/-- A row with two occupied cells in columns 4 and 5. -/
def demoRowPair : List (Option Cell) :=
  [none, none, none, none, some ⟨.J, true, false⟩, some ⟨.J, true, false⟩,
   none, none, none, none]

/-- A board blocking the spawn area two rows down, otherwise empty. -/
def demoBoardB : Board := [emptyRow, emptyRow, demoRowPair] ++ List.replicate 19 emptyRow

/-- A playing state whose O piece locks at the top without clearing anything,
after which the next spawn collides. -/
def demoLock : GameState :=
  { board := demoBoardB
    current := ⟨.O, 0, ⟨3, 0⟩⟩
    nextQueue := [.T]
    holdPiece := none
    canHold := true
    status := .playing
    score := 5
    level := 1
    lines := 0
    combo := -1
    stats := ⟨0, 0, 0, 0, 0, 0⟩
    linesToClear := []
    dropDelay := 1000 }

/-- A playing state with a free rotation available. -/
def demoRotate : GameState :=
  { demoLock with board := emptyBoard, current := ⟨.T, 0, ⟨3, 0⟩⟩ }

/-- A row with one occupied cell in column 4, blocking the spawn pose. -/
def demoRowTop : List (Option Cell) :=
  [none, none, none, none, some ⟨.J, true, false⟩, none, none, none, none, none]

/-- A board occupied at (4, 0), otherwise empty. -/
def demoBoardC : Board := [demoRowTop] ++ List.replicate 21 emptyRow

/-- A playing state holding a T piece whose swap-in pose is blocked. -/
def demoHold : GameState :=
  { demoLock with
    board := demoBoardC
    current := ⟨.L, 2, ⟨0, 15⟩⟩
    holdPiece := some .T }

/-- A playing state with hold available and nothing held, on an empty board. -/
def demoHoldFree : GameState :=
  { demoLock with board := emptyBoard, current := ⟨.L, 0, ⟨3, 5⟩⟩ }

/-- An idle state with a minimal board. -/
def demoIdle : GameState :=
  { demoLock with board := [], nextQueue := [], status := .idle }

/-! Theorems. -/

/-- Claim C9, counterexample: the claim says pause_toggle leaves a state with
status idle unchanged, but the reducer moves an idle state to paused. -/
theorem pause_toggle_other_status_cex :
    demoIdle.status = .idle ∧
    reducer stdBag stdBag demoIdle .PAUSE_TOGGLE ≠ demoIdle := by
  exact ⟨rfl, by decide⟩

/-- Claim C9, amended: pause_toggle sets the status to playing when it is
paused and to paused from every other status (including idle and game-over),
leaving all other fields unchanged. -/
theorem pause_toggle_flip (b1 b2 : List Tetromino) (s : GameState) :
    reducer b1 b2 s .PAUSE_TOGGLE =
      {s with status := if s.status = .paused then .playing else .paused} := rfl

/-- Claim C7: a spawnPiece draw with bags of seven kinds (as randomBag always
produces) succeeds, takes the front element of the queue (after pushing a bag
when the queue was empty), spawns it at rotation 0 and position (3, 0), and
returns a queue of length at least 7. -/
theorem spawnPiece_queue_length (queue bag1 bag2 : List Tetromino)
    (h1 : bag1.length = 7) (h2 : bag2.length = 7) :
    ∃ p rest, spawnPiece bag1 bag2 queue = some (p, rest) ∧ 7 ≤ rest.length ∧
      p.rotation = 0 ∧ p.position = ⟨3, 0⟩ ∧
      some p.type = (if queue.isEmpty then queue ++ bag1 else queue).head? := by
  cases queue with
  | nil =>
    cases bag1 with
    | nil => simp at h1
    | cons a t =>
      have ht : t.length = 6 := by simpa using h1
      refine ⟨⟨a, 0, ⟨3, 0⟩⟩, t ++ bag2, ?_, ?_, rfl, rfl, ?_⟩
      · simp [spawnPiece, ht]
      · simp [ht, h2]
      · simp
  | cons a t =>
    by_cases hlen : t.length ≤ 7
    · refine ⟨⟨a, 0, ⟨3, 0⟩⟩, t ++ bag2, ?_, ?_, rfl, rfl, ?_⟩
      · simp [spawnPiece, hlen]
      · simp [h2]
      · simp
    · refine ⟨⟨a, 0, ⟨3, 0⟩⟩, t, ?_, ?_, rfl, rfl, ?_⟩
      · simp [spawnPiece, hlen]
      · omega
      · simp

/-- Claim C7, witness: drawing from an empty queue with standard bags. -/
theorem spawnPiece_queue_length_witness :
    ∃ p rest, spawnPiece stdBag stdBag [] = some (p, rest) ∧ 7 ≤ rest.length ∧
      p.rotation = 0 ∧ p.position = ⟨3, 0⟩ ∧
      some p.type = (if ([] : List Tetromino).isEmpty then [] ++ stdBag else []).head? :=
  spawnPiece_queue_length [] stdBag stdBag rfl rfl

/-- Claim C10: when the piece that would become active after a hold (held
kind, or queue draw when nothing is held) collides at its spawn pose, the
HOLD case changes only the status to game-over: board, held piece,
hold-availability, score and queue are those of the input state, and the
queue draw is discarded. -/
theorem hold_blocked_gameover (b1 b2 : List Tetromino) (s : GameState)
    (p : ActivePiece) (q : List Tetromino)
    (hp : s.status = .playing) (hc : s.canHold = true)
    (hcand : holdCandidate b1 b2 s = some (p, q))
    (hcol : collides s.board p p.position p.rotation = true) :
    reducer b1 b2 s .HOLD = {s with status := .gameover} := by
  cases hh : s.holdPiece with
  | some h0 =>
    have hpq : p = ⟨h0, 0, ⟨3, 0⟩⟩ := by
      unfold holdCandidate at hcand
      rw [hh] at hcand
      simp only [Option.some.injEq, Prod.mk.injEq] at hcand
      exact hcand.1.symm
    subst hpq
    simp only [reducer]
    rw [if_neg (by simp [hp, hc]), hh]
    simp [hcol]
  | none =>
    unfold holdCandidate at hcand
    rw [hh] at hcand
    have hcand2 : spawnPiece b1 b2 s.nextQueue = some (p, q) := by simpa using hcand
    simp only [reducer]
    rw [if_neg (by simp [hp, hc]), hh]
    simp [hcand2, hcol]

/-- Claim C10, witness: holding a blocked T piece on a board occupied at the
spawn cell turns the state over to game-over and nothing else. -/
theorem hold_blocked_gameover_witness :
    reducer stdBag stdBag demoHold .HOLD = { demoHold with status := .gameover } :=
  hold_blocked_gameover stdBag stdBag demoHold ⟨.T, 0, ⟨3, 0⟩⟩ demoHold.nextQueue
    rfl rfl rfl (by decide)

/-- The HOLD case is a no-op when the status is not playing or hold is
unavailable. -/
theorem hold_noop (b1 b2 : List Tetromino) (s : GameState)
    (h : s.status ≠ .playing ∨ s.canHold = false) :
    reducer b1 b2 s .HOLD = s := by
  simp only [reducer]
  rw [if_pos h]

/-- spawnPiece succeeds whenever the bag pushed on an empty queue is
non-empty (randomBag always returns seven kinds). -/
theorem spawnPiece_ne_none (b1 b2 queue : List Tetromino) (h : b1 ≠ []) :
    spawnPiece b1 b2 queue ≠ none := by
  cases queue with
  | nil =>
    cases b1 with
    | nil => exact absurd rfl h
    | cons a t => simp [spawnPiece]
  | cons a t => simp [spawnPiece]

/-- After a HOLD processed in a playing state with hold available, either the
status has become game-over or the hold-availability flag is cleared. -/
theorem hold_flag_after (b1 b2 : List Tetromino) (s : GameState)
    (h1 : b1 ≠ []) (hp : s.status = .playing) (hc : s.canHold = true) :
    (reducer b1 b2 s .HOLD).status = .gameover ∨
      (reducer b1 b2 s .HOLD).canHold = false := by
  simp only [reducer]
  rw [if_neg (by simp [hp, hc])]
  cases hh : s.holdPiece with
  | some h0 =>
    by_cases hcol : collides s.board ⟨h0, 0, ⟨3, 0⟩⟩ ⟨3, 0⟩ 0 = true
    · left
      simp [hcol]
    · right
      simp [hcol]
  | none =>
    cases hsp : spawnPiece b1 b2 s.nextQueue with
    | none => exact absurd hsp (spawnPiece_ne_none b1 b2 s.nextQueue h1)
    | some pr =>
      obtain ⟨p, q⟩ := pr
      by_cases hcol : collides s.board p p.position p.rotation = true
      · left
        simp [hsp, hcol]
      · right
        simp [hsp, hcol]

/-- Claim C6: with bags of seven kinds (as randomBag always produces), a
second HOLD without an intervening lock leaves the state of the first HOLD
unchanged: hold composed with itself equals hold. -/
theorem hold_hold (b1 b2 c1 c2 : List Tetromino) (s : GameState)
    (h1 : b1.length = 7) :
    reducer c1 c2 (reducer b1 b2 s .HOLD) .HOLD = reducer b1 b2 s .HOLD := by
  by_cases hp : s.status = .playing
  · by_cases hc : s.canHold = true
    · have hb : b1 ≠ [] := by
        intro h
        rw [h] at h1
        simp at h1
      rcases hold_flag_after b1 b2 s hb hp hc with hgo | hch
      · refine hold_noop c1 c2 _ (Or.inl ?_)
        rw [hgo]
        simp
      · exact hold_noop c1 c2 _ (Or.inr hch)
    · have hc2 : s.canHold = false := by
        cases hcb : s.canHold with
        | false => rfl
        | true => exact absurd hcb hc
      rw [hold_noop b1 b2 s (Or.inr hc2)]
      exact hold_noop c1 c2 s (Or.inr hc2)
  · rw [hold_noop b1 b2 s (Or.inl hp)]
    exact hold_noop c1 c2 s (Or.inl hp)

/-- Claim C6, witness: two successive holds from a playing state with hold
available and nothing held. -/
theorem hold_hold_witness :
    reducer stdBag stdBag (reducer stdBag stdBag demoHoldFree .HOLD) .HOLD =
      reducer stdBag stdBag demoHoldFree .HOLD :=
  hold_hold stdBag stdBag stdBag stdBag demoHoldFree rfl

/-- Claim C1: collides is true exactly when some occupied cell of the pose's
rotation matrix maps to a column outside the horizontal bounds, to a row at
or past the bottom boundary, or onto an occupied board cell at a
non-negative row; an occupied cell above the top with its column in range is
never blocking, since it satisfies none of these disjuncts. -/
theorem collides_iff (board : Board) (piece : ActivePiece) (pos : Pos) (rot : Nat) :
    collides board piece pos rot = true ↔
      ∃ y, y < (getPieceMatrix piece.type rot).length ∧
        ∃ x, x < ((getPieceMatrix piece.type rot).getD y []).length ∧
          ((getPieceMatrix piece.type rot).getD y []).getD x 0 ≠ 0 ∧
          (pos.x + (x : Int) < 0 ∨ (BOARD_WIDTH : Int) ≤ pos.x + (x : Int) ∨
            (BOARD_HEIGHT : Int) ≤ pos.y + (y : Int) ∨
            (0 ≤ pos.y + (y : Int) ∧
              (cellAt board (pos.x + (x : Int)) (pos.y + (y : Int))).isSome = true)) := by
  simp [collides, List.any_eq_true, List.mem_range, Bool.and_eq_true, Bool.or_eq_true,
        decide_eq_true_eq, or_assoc]

/-- The kick loop returns none exactly when every offset collides. -/
theorem tryKicks_eq_none_iff (board : Board) (piece : ActivePiece) (rot : Nat)
    (ks : List Pos) :
    tryKicks board piece rot ks = none ↔
      ∀ k ∈ ks, collides board piece
        ⟨piece.position.x + k.x, piece.position.y + k.y⟩ rot = true := by
  induction ks with
  | nil => simp [tryKicks]
  | cons k ks ih =>
    by_cases hcol : collides board piece
        ⟨piece.position.x + k.x, piece.position.y + k.y⟩ rot = true
    · simp [tryKicks, hcol, ih]
    · simp [tryKicks, hcol]

/-- A successful kick resolution yields the target rotation and the first
offset in declared order whose candidate pose does not collide. -/
theorem tryKicks_eq_some (board : Board) (piece : ActivePiece) (rot : Nat)
    (ks : List Pos) (p : Pos) (r : Nat) :
    tryKicks board piece rot ks = some (p, r) →
      r = rot ∧ ∃ i, i < ks.length ∧
        p = ⟨piece.position.x + (ks.getD i ⟨0, 0⟩).x,
             piece.position.y + (ks.getD i ⟨0, 0⟩).y⟩ ∧
        collides board piece p rot = false ∧
        ∀ j, j < i → collides board piece
          ⟨piece.position.x + (ks.getD j ⟨0, 0⟩).x,
           piece.position.y + (ks.getD j ⟨0, 0⟩).y⟩ rot = true := by
  induction ks with
  | nil => simp [tryKicks]
  | cons k ks ih =>
    intro h
    by_cases hcol : collides board piece
        ⟨piece.position.x + k.x, piece.position.y + k.y⟩ rot = true
    · rw [tryKicks, if_pos hcol] at h
      obtain ⟨hr, i, hi, hp2, hnc, hall⟩ := ih h
      refine ⟨hr, i + 1, by simpa using hi, by simpa using hp2, hnc, ?_⟩
      intro j hj
      cases j with
      | zero => simpa using hcol
      | succ j2 => simpa using hall j2 (by omega)
    · rw [tryKicks, if_neg hcol] at h
      obtain ⟨hp2, hr⟩ : p = ⟨piece.position.x + k.x, piece.position.y + k.y⟩ ∧ rot = r := by
        simpa [eq_comm] using h
      subst hp2
      refine ⟨hr.symm, 0, by simp, by simp, ?_, by omega⟩
      simpa using hcol

/-- Claim C4: in a playing state, ROTATE computes the target rotation
(current + direction) mod 4, selects the kick list keyed by the rotation
pair (single no-offset kick for O, the I table for I, the shared table
otherwise), and commits the position and rotation of the first offset whose
candidate pose does not collide; when the resolution fails the state is
returned unchanged, and it fails exactly when every offset collides. -/
theorem rotate_resolution (b1 b2 : List Tetromino) (s : GameState) (direction : Int)
    (nextRotation : Nat) (kicks : List Pos)
    (hp : s.status = .playing)
    (hr : nextRotation = (((s.current.rotation : Int) + direction + 4) % 4).toNat)
    (hk : kicks = kickList s.current.type s.current.rotation nextRotation) :
    (reducer b1 b2 s (.ROTATE direction) =
      match applyKickTests s.board s.current direction with
      | none => s
      | some pr =>
        {s with current := {s.current with position := pr.1, rotation := pr.2}}) ∧
    (applyKickTests s.board s.current direction = none ↔
      ∀ k ∈ kicks, collides s.board s.current
        ⟨s.current.position.x + k.x, s.current.position.y + k.y⟩ nextRotation = true) ∧
    (∀ p r, applyKickTests s.board s.current direction = some (p, r) →
      r = nextRotation ∧ ∃ i, i < kicks.length ∧
        p = ⟨s.current.position.x + (kicks.getD i ⟨0, 0⟩).x,
             s.current.position.y + (kicks.getD i ⟨0, 0⟩).y⟩ ∧
        collides s.board s.current p nextRotation = false ∧
        ∀ j, j < i → collides s.board s.current
          ⟨s.current.position.x + (kicks.getD j ⟨0, 0⟩).x,
           s.current.position.y + (kicks.getD j ⟨0, 0⟩).y⟩ nextRotation = true) := by
  subst hr
  subst hk
  refine ⟨?_, ?_, ?_⟩
  · simp only [reducer]
    rw [if_neg (by simp [hp])]
  · exact tryKicks_eq_none_iff _ _ _ _
  · intro p r
    exact tryKicks_eq_some _ _ _ _ _ _

/-- Claim C4, witness: rotating a freshly spawned T piece clockwise on an
empty board succeeds with the first (no-offset) kick. -/
theorem rotate_resolution_witness :
    reducer stdBag stdBag demoRotate (.ROTATE 1) =
      { demoRotate with current := ⟨.T, 1, ⟨3, 0⟩⟩ } := by
  have h := (rotate_resolution stdBag stdBag demoRotate 1 1
    (kickList Tetromino.T 0 1) rfl (by decide) rfl).1
  exact h.trans (by decide)

/-- A TICK whose downward move is blocked and whose merge completes at least
one row reduces to the clearing lock procedure with no score bonus. -/
theorem tick_locks_clearing (b1 b2 : List Tetromino) (s : GameState)
    (hp : s.status = .playing)
    (hcol : collides s.board s.current
      ⟨s.current.position.x, s.current.position.y + 1⟩ s.current.rotation = true)
    (hne : findFullLines (mergePiece s.board s.current) ≠ []) :
    reducer b1 b2 s .TICK =
      lockClear s (mergePiece s.board s.current)
        (findFullLines (mergePiece s.board s.current)) 0 := by
  simp only [reducer]
  rw [if_neg (by simp [hp]), if_pos hcol, if_neg (by simpa using hne)]

/-- A HARD_DROP whose landed merge completes at least one row reduces to the
clearing lock procedure with a bonus of twice the drop distance. -/
theorem harddrop_locks_clearing (b1 b2 : List Tetromino) (s : GameState)
    (hp : s.status = .playing)
    (hne : findFullLines (mergePiece s.board
      { s.current with position := ⟨s.current.position.x,
        s.current.position.y + (dropDistance s.board s.current : Int)⟩ }) ≠ []) :
    reducer b1 b2 s .HARD_DROP =
      lockClear s
        (mergePiece s.board
          { s.current with position := ⟨s.current.position.x,
            s.current.position.y + (dropDistance s.board s.current : Int)⟩ })
        (findFullLines (mergePiece s.board
          { s.current with position := ⟨s.current.position.x,
            s.current.position.y + (dropDistance s.board s.current : Int)⟩ }))
        (2 * (dropDistance s.board s.current : Int)) := by
  simp only [reducer]
  rw [if_neg (by simp [hp]), if_neg (by simpa using hne)]

/-- The score written by the clearing lock procedure. -/
theorem lockClear_score (s : GameState) (merged : Board) (lines : List Nat)
    (bonus : Int) :
    (lockClear s merged lines bonus).score =
      s.score + (SCORES.getD lines.length 0 +
        (if 0 < s.combo + 1 then (s.combo + 1) * 50 else 0)) *
        (calculateLevel (s.lines + lines.length) : Int) + bonus := by
  simp [lockClear]
  ring

/-- Claim C2, counterexample: the claim computes the delta of a clearing lock
as base times level plus combo bonus; at level 2 with an incoming combo of 0
the code adds 300 = (100 + 50) times 2 to the score where the claim predicts
100 times 2 plus 50 = 250. -/
theorem score_delta_claim_cex :
    demoCombo.status = .playing ∧
    collides demoCombo.board demoCombo.current ⟨6, 21⟩ 0 = true ∧
    findFullLines (mergePiece demoCombo.board demoCombo.current) = [21] ∧
    demoCombo.combo = 0 ∧ demoCombo.lines = 9 ∧ demoCombo.score = 0 ∧
    calculateLevel (demoCombo.lines + 1) = 2 ∧
    (reducer stdBag stdBag demoCombo .TICK).score = 300 ∧
    (300 : Int) ≠ 100 * 2 + 50 := by decide

/-- Claim C2, amended: on a clearing lock via TICK or HARD_DROP the score
increase equals (base score for the row count plus the combo bonus) times
the level computed from the total lines including the rows about to clear,
plus twice the drop distance for a hard drop; the combo bonus is 50 times
the incremented combo counter when that counter is positive. -/
theorem score_delta_locked :
    (∀ (b1 b2 : List Tetromino) (s : GameState) (lines : List Nat),
      s.status = .playing →
      collides s.board s.current
        ⟨s.current.position.x, s.current.position.y + 1⟩ s.current.rotation = true →
      lines = findFullLines (mergePiece s.board s.current) →
      lines ≠ [] → lines.length ≤ 4 →
      (reducer b1 b2 s .TICK).score =
        s.score + (SCORES.getD lines.length 0 +
          (if 0 < s.combo + 1 then (s.combo + 1) * 50 else 0)) *
          (calculateLevel (s.lines + lines.length) : Int)) ∧
    (∀ (b1 b2 : List Tetromino) (s : GameState) (lines : List Nat),
      s.status = .playing →
      lines = findFullLines (mergePiece s.board
        { s.current with position := ⟨s.current.position.x,
          s.current.position.y + (dropDistance s.board s.current : Int)⟩ }) →
      lines ≠ [] → lines.length ≤ 4 →
      (reducer b1 b2 s .HARD_DROP).score =
        s.score + (SCORES.getD lines.length 0 +
          (if 0 < s.combo + 1 then (s.combo + 1) * 50 else 0)) *
          (calculateLevel (s.lines + lines.length) : Int) +
          2 * (dropDistance s.board s.current : Int)) := by
  constructor
  · intro b1 b2 s lines hp hcol hl hne hle
    subst hl
    rw [tick_locks_clearing b1 b2 s hp hcol hne, lockClear_score]
    ring
  · intro b1 b2 s lines hp hl hne hle
    subst hl
    rw [harddrop_locks_clearing b1 b2 s hp hne, lockClear_score]

/-- Claim C2, witness: the amended formula evaluated on a one-row clear at
level 2 with an active combo, and on a one-row clear hard-dropped from ten
rows up at level 1. -/
theorem score_delta_locked_witness :
    (reducer stdBag stdBag demoCombo .TICK).score = 300 ∧
    (reducer stdBag stdBag demoDrop .HARD_DROP).score = 120 := by
  constructor
  · have h := score_delta_locked.1 stdBag stdBag demoCombo [21] rfl (by decide)
      (by decide) (by decide) (by decide)
    exact h.trans (by decide)
  · have h := score_delta_locked.2 stdBag stdBag demoDrop [21] rfl
      (by decide) (by decide) (by decide)
    exact h.trans (by decide)

/-- Claim C3: a tick lock clearing n rows with the combo counter at its
sentinel -1 and a computed level of 1 (total lines including the clear below
10) adds exactly the base score 100/300/500/800 for n = 1/2/3/4; entered
with a combo counter of 0 (so the streak becomes 1) it adds a 50-point combo
bonus inside the quantity multiplied by the level. -/
theorem score_exactness :
    (∀ (b1 b2 : List Tetromino) (s : GameState) (lines : List Nat),
      s.status = .playing →
      collides s.board s.current
        ⟨s.current.position.x, s.current.position.y + 1⟩ s.current.rotation = true →
      lines = findFullLines (mergePiece s.board s.current) →
      lines ≠ [] → lines.length ≤ 4 →
      s.combo = -1 → s.lines + lines.length < 10 →
      (reducer b1 b2 s .TICK).score =
        s.score + [0, 100, 300, 500, 800].getD lines.length 0) ∧
    (∀ (b1 b2 : List Tetromino) (s : GameState) (lines : List Nat),
      s.status = .playing →
      collides s.board s.current
        ⟨s.current.position.x, s.current.position.y + 1⟩ s.current.rotation = true →
      lines = findFullLines (mergePiece s.board s.current) →
      lines ≠ [] → lines.length ≤ 4 →
      s.combo = 0 →
      (reducer b1 b2 s .TICK).score =
        s.score + ([0, 100, 300, 500, 800].getD lines.length 0 + 50) *
          (calculateLevel (s.lines + lines.length) : Int)) := by
  constructor
  · intro b1 b2 s lines hp hcol hl hne hle hcombo hsum
    subst hl
    rw [tick_locks_clearing b1 b2 s hp hcol hne, lockClear_score, hcombo]
    have hlev : calculateLevel (s.lines +
        (findFullLines (mergePiece s.board s.current)).length) = 1 := by
      unfold calculateLevel
      rw [Nat.div_eq_of_lt hsum]
      decide
    rw [hlev]
    simp [SCORES]
  · intro b1 b2 s lines hp hcol hl hne hle hcombo
    subst hl
    rw [tick_locks_clearing b1 b2 s hp hcol hne, lockClear_score, hcombo]
    simp [SCORES]

/-- Claim C3, witness: a single-row clear at level 1 without combo scores
100; the same clear entered with combo 0 at level 2 scores (100 + 50)
times 2. -/
theorem score_exactness_witness :
    (reducer stdBag stdBag demoClear .TICK).score = 100 ∧
    (reducer stdBag stdBag demoCombo .TICK).score = 0 + (100 + 50) * 2 := by
  constructor
  · have h := score_exactness.1 stdBag stdBag demoClear [21] rfl (by decide)
      (by decide) (by decide) (by decide) rfl (by decide)
    exact h.trans (by decide)
  · have h := score_exactness.2 stdBag stdBag demoCombo [21] rfl (by decide)
      (by decide) (by decide) (by decide) rfl
    exact h.trans (by decide)

/-- Claim C8: when a lock via TICK or HARD_DROP clears no rows and the next
piece drawn from the queue collides at its spawn pose, the resulting state
has status game-over and its board is the merged board holding the just
locked piece (a hard drop also banks its drop bonus first). -/
theorem gameover_blocked_spawn :
    (∀ (b1 b2 : List Tetromino) (s : GameState) (p : ActivePiece)
        (q : List Tetromino),
      s.status = .playing →
      collides s.board s.current
        ⟨s.current.position.x, s.current.position.y + 1⟩ s.current.rotation = true →
      findFullLines (mergePiece s.board s.current) = [] →
      spawnPiece b1 b2 s.nextQueue = some (p, q) →
      collides (mergePiece s.board s.current) p p.position p.rotation = true →
      reducer b1 b2 s .TICK =
        {s with board := mergePiece s.board s.current, status := .gameover}) ∧
    (∀ (b1 b2 : List Tetromino) (s : GameState) (p landed : ActivePiece)
        (q : List Tetromino) (d : Nat),
      s.status = .playing →
      d = dropDistance s.board s.current →
      landed = { s.current with position := ⟨s.current.position.x,
        s.current.position.y + (d : Int)⟩ } →
      findFullLines (mergePiece s.board landed) = [] →
      spawnPiece b1 b2 s.nextQueue = some (p, q) →
      collides (mergePiece s.board landed) p p.position p.rotation = true →
      reducer b1 b2 s .HARD_DROP =
        { s with
          board := mergePiece s.board landed
          score := s.score + 2 * (d : Int)
          status := .gameover }) := by
  constructor
  · intro b1 b2 s p q hp hcol hl hsp hcolp
    simp only [reducer]
    rw [if_neg (by simp [hp]), if_pos hcol, if_pos (by simp [hl]), hsp]
    simp [hcolp]
  · intro b1 b2 s p landed q d hp hd hland hl hsp hcolp
    subst hd
    subst hland
    simp only [reducer]
    rw [if_neg (by simp [hp]), if_pos (by simp [hl]), hsp]
    simp [hcolp]

/-- Claim C8, witness: an O piece locking at the top of a stack without
clearing, after which the T piece drawn from the queue cannot spawn. -/
theorem gameover_blocked_spawn_witness :
    reducer stdBag stdBag demoLock .TICK =
      { demoLock with
        board := mergePiece demoLock.board demoLock.current
        status := .gameover } ∧
    reducer stdBag stdBag demoLock .HARD_DROP =
      { demoLock with
        board := mergePiece demoLock.board demoLock.current
        score := 5
        status := .gameover } := by
  constructor
  · exact gameover_blocked_spawn.1 stdBag stdBag demoLock ⟨.T, 0, ⟨3, 0⟩⟩ stdBag rfl
      (by decide) (by decide) (by decide) (by decide)
  · have h := gameover_blocked_spawn.2 stdBag stdBag demoLock ⟨.T, 0, ⟨3, 0⟩⟩
      ⟨.O, 0, ⟨3, 0⟩⟩ stdBag 0 rfl (by decide) (by decide) (by decide) (by decide)
      (by decide)
    exact h.trans (by decide)

/-- Removing the rows of the empty index list keeps the board. -/
theorem rowsNotIn_nil (b : Board) (i : Nat) : rowsNotIn [] i b = b := by
  induction b generalizing i with
  | nil => rfl
  | cons r rs ih => simp [rowsNotIn, ih]

/-- An index below every remaining label can be dropped from the removal
list. -/
theorem rowsNotIn_skip (b : Board) (i l : Nat) (ls : List Nat) (h : l < i) :
    rowsNotIn (l :: ls) i b = rowsNotIn ls i b := by
  induction b generalizing i with
  | nil => rfl
  | cons r rs ih =>
    have hne : ¬ i = l := by omega
    simp only [rowsNotIn, List.mem_cons, hne, false_or]
    rw [ih (i + 1) (by omega)]

/-- Splicing out row l and shifting the labels by one is the same as also
listing l for removal: the indices of the rows below a spliced row are
unchanged by the splice-then-unshift step. -/
theorem rowsNotIn_eraseIdx (b : Board) (i l : Nat) (ls : List Nat)
    (hil : i ≤ l) (hlb : l < i + b.length) (hall : ∀ j ∈ ls, l < j) :
    rowsNotIn ls (i + 1) (b.eraseIdx (l - i)) = rowsNotIn (l :: ls) i b := by
  induction b generalizing i with
  | nil => simp at hlb; omega
  | cons r rs ih =>
    by_cases heq : i = l
    · subst heq
      rw [Nat.sub_self, List.eraseIdx_cons_zero]
      have hmem : i ∈ i :: ls := List.mem_cons_self i ls
      simp only [rowsNotIn]
      rw [if_pos hmem]
      exact (rowsNotIn_skip rs (i + 1) i ls (by omega)).symm
    · have hlt : i < l := by omega
      rw [show l - i = (l - (i + 1)) + 1 by omega, List.eraseIdx_cons_succ]
      have h1 : ¬ (i + 1) ∈ ls := fun hmem => by
        have := hall _ hmem
        omega
      have h2 : ¬ i ∈ l :: ls := by
        simp only [List.mem_cons]
        push_neg
        exact ⟨heq, fun hmem => by have := hall _ hmem; omega⟩
      simp only [rowsNotIn]
      rw [if_neg h1, if_neg h2]
      rw [ih (i + 1) (by omega) (by simp only [List.length_cons] at hlb; omega)]

/-- Each splice-and-unshift step preserves the board height, so the whole
collapse loop does. -/
theorem collapse_foldl_length (lines : List Nat) (b : Board)
    (hval : ∀ l ∈ lines, l < b.length) :
    (lines.foldl collapseStep b).length = b.length := by
  induction lines generalizing b with
  | nil => rfl
  | cons l ls ih =>
    have hLb : l < b.length := hval l (List.mem_cons_self l ls)
    have hlen : (collapseStep b l).length = b.length := by
      simp [collapseStep, List.length_eraseIdx, hLb]
      omega
    rw [List.foldl_cons,
      ih (collapseStep b l) (fun j hj => hlen ▸ hval j (List.mem_cons_of_mem l hj)),
      hlen]

/-- Every surviving row of the removal was a row of the input board. -/
theorem rowsNotIn_subset (lines : List Nat) (b : Board) (i : Nat)
    (r : List (Option Cell)) :
    r ∈ rowsNotIn lines i b → r ∈ b := by
  induction b generalizing i with
  | nil => simp [rowsNotIn]
  | cons r0 rs ih =>
    simp only [rowsNotIn]
    by_cases hmem : i ∈ lines
    · rw [if_pos hmem]
      intro h
      exact List.mem_cons_of_mem r0 (ih (i + 1) h)
    · rw [if_neg hmem]
      intro h
      rcases List.mem_cons.mp h with h1 | h2
      · exact h1 ▸ List.mem_cons_self r0 rs
      · exact List.mem_cons_of_mem r0 (ih (i + 1) h2)

/-- The collapse loop over strictly increasing valid indices produces the
fresh empty rows on top of the surviving rows in their original order. -/
theorem collapse_foldl_spec (lines : List Nat) (b : Board)
    (hsort : List.Pairwise (· < ·) lines)
    (hval : ∀ l ∈ lines, l < b.length) :
    lines.foldl collapseStep b =
      List.replicate lines.length emptyRow ++ rowsNotIn lines 0 b := by
  induction lines generalizing b with
  | nil => simp [rowsNotIn_nil]
  | cons l ls ih =>
    obtain ⟨hhead, htail⟩ := List.pairwise_cons.mp hsort
    have hLb : l < b.length := hval l (List.mem_cons_self l ls)
    have hlen : (collapseStep b l).length = b.length := by
      simp [collapseStep, List.length_eraseIdx, hLb]
      omega
    rw [List.foldl_cons,
      ih (collapseStep b l) htail
        (fun j hj => hlen ▸ hval j (List.mem_cons_of_mem l hj))]
    have h0n : ¬ (0 : Nat) ∈ ls := fun hmem => by
      have := hhead _ hmem
      omega
    have h0 : rowsNotIn ls 0 (collapseStep b l) =
        emptyRow :: rowsNotIn (l :: ls) 0 b := by
      simp only [collapseStep, rowsNotIn]
      rw [if_neg h0n]
      have := rowsNotIn_eraseIdx b 0 l ls (by omega) (by omega) hhead
      rw [show l - 0 = l from rfl] at this
      rw [this]
    rw [h0]
    simp [List.replicate_succ', List.append_assoc]

/-- Claim C5: clearing a strictly increasing list of valid row indices
removes exactly those rows, inserts that many fresh empty rows at the top,
preserves the order of the remaining rows, preserves the board height (and
the width when every row has the board width), and the empty list returns
the board unchanged. -/
theorem clearFullLines_spec (b : Board) (lines : List Nat)
    (hsort : List.Pairwise (· < ·) lines)
    (hval : ∀ l ∈ lines, l < b.length) :
    clearFullLines b lines =
      List.replicate lines.length emptyRow ++ rowsNotIn lines 0 b ∧
    (clearFullLines b lines).length = b.length ∧
    ((∀ r ∈ b, r.length = BOARD_WIDTH) →
      ∀ r ∈ clearFullLines b lines, r.length = BOARD_WIDTH) ∧
    clearFullLines b [] = b := by
  have hmain : clearFullLines b lines =
      List.replicate lines.length emptyRow ++ rowsNotIn lines 0 b := by
    cases lines with
    | nil => simp [clearFullLines, rowsNotIn_nil]
    | cons l ls =>
      simp only [clearFullLines, List.isEmpty_cons, if_false, Bool.false_eq_true]
      exact collapse_foldl_spec (l :: ls) b hsort hval
  refine ⟨hmain, ?_, ?_, by simp [clearFullLines]⟩
  · cases lines with
    | nil => simp [clearFullLines]
    | cons l ls =>
      simp only [clearFullLines, List.isEmpty_cons, if_false, Bool.false_eq_true]
      exact collapse_foldl_length (l :: ls) b hval
  · intro hw r hr
    rw [hmain] at hr
    rcases List.mem_append.mp hr with h1 | h2
    · rw [List.eq_of_mem_replicate h1]
      simp [emptyRow, BOARD_WIDTH]
    · exact hw r (rowsNotIn_subset lines b 0 r h2)

/-- Claim C5, witness: clearing the completed bottom row of the demo board. -/
theorem clearFullLines_spec_witness :
    (clearFullLines demoBoardA [21] =
      List.replicate ([21] : List Nat).length emptyRow ++
        rowsNotIn [21] 0 demoBoardA) ∧
    (clearFullLines demoBoardA [21]).length = demoBoardA.length ∧
    ((∀ r ∈ demoBoardA, r.length = BOARD_WIDTH) →
      ∀ r ∈ clearFullLines demoBoardA [21], r.length = BOARD_WIDTH) ∧
    clearFullLines demoBoardA [] = demoBoardA :=
  clearFullLines_spec demoBoardA [21] (by simp) (by decide)

end Tetris
